import Mathlib

/-!
Verification of the Email-Agent triage engine (classifier + agent pipeline).

Shallow embedding conventions:
* JavaScript `number` values (timestamps in milliseconds, confidence scores,
  day counts) are modelled as exact rationals `ℚ`; priorities are `Int`.
* `Date` values are their millisecond timestamps; the ambient clock
  (`new Date()` / `Date.now()`) is passed explicitly as a `now : ℚ` argument.
* `new Date(string)` parsing is abstracted as a parameter
  `parse : String → Option ℚ` (`none` models an invalid date / `NaN`).
* `null` / `undefined` become `Option`; JavaScript truthiness of strings
  (`""` is falsy) is spelled out where the source relies on it.
* The LLM call is an oracle parameter: `none` models an attempt whose
  retries were all exhausted (the source then falls back to
  `classifyWithRules`), `some items` models a schema-valid JSON response.
-/

namespace EmailAgent

/-! ### JS string primitives

Structural (kernel-evaluable) models of the JavaScript string methods used by
the source.  They operate on the underlying character list; Unicode corner
cases of `toLowerCase`/`trim` outside ASCII are out of scope for this model. -/

/-- `s.toLowerCase()`. -/
def jsToLower (s : String) : String := ⟨s.data.map Char.toLower⟩

/-- `s.trim()`. -/
def jsTrim (s : String) : String :=
  ⟨((s.data.dropWhile Char.isWhitespace).reverse.dropWhile
      Char.isWhitespace).reverse⟩

/-- `s.startsWith(p)`. -/
def jsStartsWith (s p : String) : Bool := s.data.take p.data.length == p.data

/-- `s.endsWith(p)`. -/
def jsEndsWith (s p : String) : Bool :=
  p.data.length ≤ s.data.length &&
    s.data.drop (s.data.length - p.data.length) == p.data

/-- `s.slice(0, n)` (also `Array.prototype.slice(0, n)` on strings). -/
def jsTake (s : String) (n : ℕ) : String := ⟨s.data.take n⟩

/-- Split a character list at every occurrence of `c`
(JS `s.split(c)` semantics: `"".split("@") = [""]`, `"a@" → ["a",""]`). -/
def splitOnChar (c : Char) : List Char → List (List Char)
  | [] => [[]]
  | x :: t =>
    let r := splitOnChar c t
    if x = c then [] :: r
    else
      match r with
      | [] => [[x]]
      | h :: t2 => (x :: h) :: t2

/-- `s.split(c)` as strings. -/
def jsSplit (s : String) (c : Char) : List String :=
  (splitOnChar c s.data).map String.mk

/-- The fixed 16-value category taxonomy (`ALLOWED_CATEGORIES` in
`classifier.ts`). -/
def ALLOWED_CATEGORIES : List String :=
  ["approval", "reply-needed", "task", "meeting", "fyi",
   "personal", "support", "finance", "travel", "shipping",
   "security", "social", "notification", "newsletter",
   "marketing", "spam"]

/-- Association-list lookup modelling a JS record indexing `m[k]`. -/
def assocLookup {β : Type} (m : List (String × β)) (k : String) : Option β :=
  match m with
  | [] => none
  | (a, b) :: t => if k = a then some b else assocLookup t k

/-- `m[k] ?? d`. -/
def lookupD {β : Type} (m : List (String × β)) (k : String) (d : β) : β :=
  (assocLookup m k).getD d

/-- The category alias table `CATEGORY_MAP` of `classifier.ts`. -/
def CATEGORY_MAP : List (String × String) :=
  [("approval", "approval"),
   ("reply-needed", "reply-needed"),
   ("reply_needed", "reply-needed"),
   ("reply needed", "reply-needed"),
   ("task", "task"),
   ("meeting", "meeting"),
   ("fyi", "fyi"),
   ("personal", "personal"),
   ("support", "support"),
   ("finance", "finance"),
   ("travel", "travel"),
   ("shipping", "shipping"),
   ("security", "security"),
   ("social", "social"),
   ("notification", "notification"),
   ("newsletter", "newsletter"),
   ("marketing", "marketing"),
   ("spam", "spam"),
   ("action-required", "task"),
   ("action_required", "task"),
   ("assignment", "task"),
   ("todo", "task"),
   ("to-do", "task"),
   ("question", "reply-needed"),
   ("request", "reply-needed"),
   ("financial", "finance"),
   ("receipt", "finance"),
   ("invoice", "finance"),
   ("billing", "finance"),
   ("payment", "finance"),
   ("bank", "finance"),
   ("tax", "finance"),
   ("promotion", "marketing"),
   ("promo", "marketing"),
   ("offer", "marketing"),
   ("deal", "marketing"),
   ("sale", "marketing"),
   ("social-media", "social"),
   ("linkedin", "social"),
   ("twitter", "social"),
   ("facebook", "social"),
   ("instagram", "social"),
   ("delivery", "shipping"),
   ("tracking", "shipping"),
   ("order", "shipping"),
   ("shipment", "shipping"),
   ("2fa", "security"),
   ("mfa", "security"),
   ("password", "security"),
   ("login-alert", "security"),
   ("verification", "security"),
   ("flight", "travel"),
   ("hotel", "travel"),
   ("booking", "travel"),
   ("itinerary", "travel"),
   ("trip", "travel"),
   ("reservation", "travel"),
   ("helpdesk", "support"),
   ("ticket", "support"),
   ("customer-service", "support"),
   ("calendar", "meeting"),
   ("invitation", "meeting"),
   ("alert", "notification"),
   ("reminder", "notification"),
   ("automated", "notification"),
   ("system", "notification"),
   ("transactional", "notification"),
   ("update", "fyi"),
   ("updates", "fyi"),
   ("digest", "newsletter"),
   ("subscription", "newsletter")]

/-- The own-property part of `normalizeCategory` of `classifier.ts`
(`CATEGORY_MAP[raw.toLowerCase().trim()] ?? "fyi"` restricted to own keys of
the object literal).  JS property indexing also walks the prototype chain;
that full behaviour is `normalizeCategoryJs` below, and the two agree
exactly when the lowercased-trimmed key is not an inherited
`Object.prototype` member name (`normalizeCategoryJs_eq_str`). -/
def normalizeCategory (raw : String) : String :=
  lookupD CATEGORY_MAP (jsTrim (jsToLower raw)) "fyi"

/-- The value read by JS property indexing on an object literal: either an
own entry (here always a category string) or a member inherited from
`Object.prototype` (a function, or the prototype object for `__proto__`) —
never nullish, so `?? "fyi"` does not fire on it. -/
inductive JsLookupValue where
  | str (s : String)
  | inheritedMember (name : String)
deriving DecidableEq, Repr

/-- The string-keyed members every plain object literal inherits from
`Object.prototype`; reading any of them yields a non-nullish value. -/
def OBJECT_PROTOTYPE_MEMBERS : List String :=
  ["constructor", "hasOwnProperty", "isPrototypeOf", "propertyIsEnumerable",
   "toLocaleString", "toString", "valueOf",
   "__defineGetter__", "__defineSetter__", "__lookupGetter__",
   "__lookupSetter__", "__proto__"]

/-- JS property read `m[k]` on an object literal: own properties shadow the
prototype; otherwise an `Object.prototype` member is returned when the key
names one; otherwise `undefined`. -/
def jsRecordIndex (m : List (String × String)) (k : String) :
    Option JsLookupValue :=
  match assocLookup m k with
  | some v => some (.str v)
  | none =>
    if k ∈ OBJECT_PROTOTYPE_MEMBERS then some (.inheritedMember k) else none

/-- `normalizeCategory` of `classifier.ts` with faithful JS indexing:
`CATEGORY_MAP[raw.toLowerCase().trim()] ?? "fyi"` — an inherited
`Object.prototype` member is not nullish, so it is returned as-is instead of
`"fyi"`. -/
def normalizeCategoryJs (raw : String) : JsLookupValue :=
  (jsRecordIndex CATEGORY_MAP (jsTrim (jsToLower raw))).getD (.str "fyi")

theorem assocLookup_mem_values {β : Type} (m : List (String × β)) (k : String) :
    ∀ v, assocLookup m k = some v → v ∈ m.map Prod.snd := by
  induction m with
  | nil => intro v h; simp [assocLookup] at h
  | cons hd tl ih =>
    intro v h
    by_cases hk : k = hd.1
    · simp [assocLookup, hk] at h
      simp [← h]
    · simp only [assocLookup, hk, if_false] at h
      simp [ih v h]

theorem lookupD_mem_or_default {β : Type} (m : List (String × β)) (k : String)
    (d : β) : lookupD m k d ∈ m.map Prod.snd ∨ lookupD m k d = d := by
  unfold lookupD
  cases h : assocLookup m k with
  | none => simp
  | some v => simp [assocLookup_mem_values m k v h]

theorem assocLookup_eq_none_of_not_mem {β : Type} (m : List (String × β))
    (k : String) (h : k ∉ m.map Prod.fst) : assocLookup m k = none := by
  induction m with
  | nil => rfl
  | cons hd tl ih =>
    simp only [List.map_cons, List.mem_cons] at h
    push_neg at h
    simp only [assocLookup, h.1, if_false]
    exact ih h.2

theorem categoryMap_values_allowed :
    ∀ v ∈ CATEGORY_MAP.map Prod.snd, v ∈ ALLOWED_CATEGORIES := by
  decide

theorem normalizeCategory_total (s : String) :
    normalizeCategory s ∈ ALLOWED_CATEGORIES := by
  rcases lookupD_mem_or_default CATEGORY_MAP (jsTrim (jsToLower s)) "fyi"
    with h | h
  · exact categoryMap_values_allowed _ h
  · unfold normalizeCategory
    rw [h]
    decide

theorem normalizeCategory_unknown (s : String)
    (h : jsTrim (jsToLower s) ∉ CATEGORY_MAP.map Prod.fst) :
    normalizeCategory s = "fyi" := by
  unfold normalizeCategory lookupD
  rw [assocLookup_eq_none_of_not_mem _ _ h]
  rfl

theorem normalizeCategory_fixed :
    ∀ v ∈ ALLOWED_CATEGORIES, normalizeCategory v = v := by
  decide

/-- Where the key avoids the inherited `Object.prototype` member names, the
faithful JS lookup agrees with the own-property model. -/
theorem normalizeCategoryJs_eq_str (s : String)
    (h : jsTrim (jsToLower s) ∉ OBJECT_PROTOTYPE_MEMBERS) :
    normalizeCategoryJs s = JsLookupValue.str (normalizeCategory s) := by
  unfold normalizeCategoryJs normalizeCategory jsRecordIndex lookupD
  cases hx : assocLookup CATEGORY_MAP (jsTrim (jsToLower s)) with
  | none => simp [h]
  | some v => simp

/-- C7 (counterexample): `"constructor"` is lowercase, trim-stable and not a
key of the alias table, so the claim says it maps to `"fyi"` — but JS
indexing finds the inherited `Object.prototype.constructor` (the `Object`
function), which is not nullish, so `?? "fyi"` never fires: the program
returns a function, not one of the 16 taxonomy values, and the result is not
even a string to feed back in, refuting totality and idempotence. -/
theorem normalizeCategory_constructor_not_total :
    "constructor" ∉ CATEGORY_MAP.map Prod.fst ∧
    normalizeCategoryJs "constructor" =
      JsLookupValue.inheritedMember "constructor" ∧
    (∀ v ∈ ALLOWED_CATEGORIES,
      normalizeCategoryJs "constructor" ≠ JsLookupValue.str v) ∧
    normalizeCategoryJs "constructor" ≠ JsLookupValue.str "fyi" := by
  refine ⟨by decide, by decide, by decide, by decide⟩

/-- C7 (amended): for every input string whose lowercased-and-trimmed form
is not an inherited `Object.prototype` member name (only `"constructor"` and
`"__proto__"` are reachable after lowercasing), `normalizeCategory` is total
into the 16-value taxonomy, maps strings outside the alias table to
`"fyi"`, and is idempotent: whenever it returns a category string, applying
it again to that string returns the same string. -/
theorem normalizeCategoryJs_total_idempotent (s : String)
    (h : jsTrim (jsToLower s) ∉ OBJECT_PROTOTYPE_MEMBERS) :
    (∃ v ∈ ALLOWED_CATEGORIES, normalizeCategoryJs s = JsLookupValue.str v) ∧
    (jsTrim (jsToLower s) ∉ CATEGORY_MAP.map Prod.fst →
      normalizeCategoryJs s = JsLookupValue.str "fyi") ∧
    (∀ v, normalizeCategoryJs s = JsLookupValue.str v →
      normalizeCategoryJs v = JsLookupValue.str v) := by
  have hb := normalizeCategoryJs_eq_str s h
  have hall : ∀ w ∈ ALLOWED_CATEGORIES,
      normalizeCategoryJs w = JsLookupValue.str w := by decide
  refine ⟨⟨normalizeCategory s, normalizeCategory_total s, hb⟩, ?_, ?_⟩
  · intro hk
    rw [hb, normalizeCategory_unknown s hk]
  · intro v hv
    rw [hb] at hv
    cases hv
    exact hall _ (normalizeCategory_total s)

/-! ### Date validation (`validateDateString` in `classifier.ts`) -/

/-- Milliseconds per day (`24 * 60 * 60 * 1000`). -/
def msPerDay : ℚ := 24 * 60 * 60 * 1000

/-- `validateDateString(dateStr, emailReceivedAt)` of `classifier.ts`.
`parse` models `new Date(string).getTime()` (`none` = `NaN`); `now` models
`new Date()`.  Rejects (returns `none`) when the string is falsy, fails to
parse, parses more than `365` days after `now`, or parses more than `7` days
before the email's receipt time; otherwise returns the original string. -/
def validateDateString (parse : String → Option ℚ) (now : ℚ)
    (dateStr : Option String) (emailReceivedAt : Option ℚ) : Option String :=
  match dateStr with
  | none => none
  | some s =>
    if s = "" then none
    else
      match parse s with
      | none => none
      | some d =>
        if now + 365 * msPerDay < d then none
        else
          match emailReceivedAt with
          | some r => if d < r - 7 * msPerDay then none else some s
          | none => some s

/-- C8: `validateDateString` rejects unparsable strings, dates more than one
year after `now`, and dates more than seven days before receipt, and accepts
everything else (returning the original string).  The claim's concrete
scenarios (400 days in the future rejected, 10 days before receipt rejected,
3 days before receipt accepted) are instances, exercised in the witness. -/
theorem validateDateString_spec (parse : String → Option ℚ) (s : String)
    (now r : ℚ) (hs : s ≠ "") :
    (parse s = none → validateDateString parse now (some s) (some r) = none) ∧
    ∀ d, parse s = some d →
      ((now + 365 * msPerDay < d ∨ d < r - 7 * msPerDay) →
        validateDateString parse now (some s) (some r) = none) ∧
      (d ≤ now + 365 * msPerDay → r - 7 * msPerDay ≤ d →
        validateDateString parse now (some s) (some r) = some s) := by
  constructor
  · intro hp
    simp [validateDateString, hs, hp]
  · intro d hp
    constructor
    · rintro (h | h)
      · simp [validateDateString, hs, hp, h]
      · by_cases hy : now + 365 * msPerDay < d
        · simp [validateDateString, hs, hp, hy]
        · simp [validateDateString, hs, hp, hy]
          linarith
    · intro h1 h2
      simp [validateDateString, hs, hp, not_lt.2 h1, not_lt.2 h2]

/-- Witness for C8 at the claim's concrete scenarios, with receipt time equal
to `now` (timestamps in ms): a date 400 days in the future is rejected, a
date 10 days before receipt is rejected, a date 3 days before receipt is
accepted, and an unparsable string is rejected. -/
theorem validateDateString_spec_witness :
    validateDateString (fun _ => some (400 * msPerDay)) 0 (some "d1") (some 0)
        = none ∧
    validateDateString (fun _ => some (-10 * msPerDay)) 0 (some "d2") (some 0)
        = none ∧
    validateDateString (fun _ => some (-3 * msPerDay)) 0 (some "d3") (some 0)
        = some "d3" ∧
    validateDateString (fun _ => none) 0 (some "d4") (some 0) = none := by
  refine ⟨?_, ?_, ?_, ?_⟩
  · exact (((validateDateString_spec (fun _ => some (400 * msPerDay)) "d1" 0 0
      (by decide)).2 (400 * msPerDay)) rfl).1 (by left; unfold msPerDay; norm_num)
  · exact (((validateDateString_spec (fun _ => some (-10 * msPerDay)) "d2" 0 0
      (by decide)).2 (-10 * msPerDay)) rfl).1 (by right; unfold msPerDay; norm_num)
  · exact (((validateDateString_spec (fun _ => some (-3 * msPerDay)) "d3" 0 0
      (by decide)).2 (-3 * msPerDay)) rfl).2 (by unfold msPerDay; norm_num)
      (by unfold msPerDay; norm_num)
  · exact (validateDateString_spec (fun _ => none) "d4" 0 0 (by decide)).1 rfl

/-! ### Noreply-sender detection and post-processing (`classifier.ts`) -/

/-- JS `\w` word character (ASCII letters, digits, underscore). -/
def isWordChar (c : Char) : Bool := c.isAlphanum || c = '_'

/-- Does `w` occur in `s` starting at index `i`? -/
def matchesAt (s w : List Char) (i : ℕ) : Bool := (s.drop i).take w.length == w

/-- `\bw\b` occurs somewhere in `s`: an occurrence of `w` whose neighbours
(if any) are non-word characters.  `List.getD` past either end yields `' '`,
a non-word character, modelling the string edge. -/
def wordOccursL (s w : List Char) : Bool :=
  (List.range (s.length + 1)).any fun i =>
    matchesAt s w i
    && (i == 0 || !isWordChar (s.getD (i - 1) ' '))
    && !isWordChar (s.getD (i + w.length) ' ')

/-- `\bw\b` on strings. -/
def wordOccurs (s w : String) : Bool := wordOccursL s.data w.data

/-- `NOREPLY_LOCAL_PARTS` of `classifier.ts`. -/
def NOREPLY_LOCAL_PARTS : List String :=
  ["noreply", "no-reply", "do-not-reply", "donotreply",
   "mailer-daemon", "postmaster", "bounce",
   "invitations", "notifications", "notification",
   "alerts", "alert", "digest", "newsletter",
   "marketing", "promo", "automated", "auto",
   "unsubscribe", "marketplace-messages"]

/-- `AUTOMATED_DOMAINS` of `classifier.ts`. -/
def AUTOMATED_DOMAINS : List String :=
  ["amazonses.com", "sendgrid.net", "mailchimp.com",
   "constantcontact.com", "mandrillapp.com", "mailgun.org"]

/-- `isNoreplySender` of `classifier.ts`: lowercase the address, split at the
first `@` (no `@` → `false`); match delivery-platform domains by suffix,
noreply local parts exactly or with a `+`/`.` separator, and finally the
word-boundary regex `\b(noreply|no-reply|donotreply|do-not-reply)\b` over the
local part. -/
def isNoreplySender (fromEmail : String) : Bool :=
  let l := (jsToLower fromEmail).data
  if '@' ∉ l then false
  else
    let atIdx := l.indexOf '@'
    let localPart : String := ⟨l.take atIdx⟩
    let domain : String := ⟨l.drop (atIdx + 1)⟩
    if AUTOMATED_DOMAINS.any (fun d => jsEndsWith domain d) then true
    else if NOREPLY_LOCAL_PARTS.any (fun p =>
        localPart = p || jsStartsWith localPart (p ++ "+")
          || jsStartsWith localPart (p ++ ".")) then true
    else
      ["noreply", "no-reply", "donotreply", "do-not-reply"].any fun w =>
        wordOccurs localPart w

/-- An action item after normalization (`{description, dueDate?}`). -/
structure ActionItem where
  description : String
  dueDate : Option String
deriving DecidableEq, Repr

/-- The per-email classification payload (`ClassificationResult` in
`types`): priority 1–5, category, flags, action items, optional deadline,
summary, confidence, topics and sentiment. -/
structure Classification where
  priority : Int
  category : String
  needsReply : Bool
  needsApproval : Bool
  isThreadActive : Bool
  actionItems : List ActionItem
  deadline : Option String
  summary : String
  confidence : ℚ
  topics : List String
  sentiment : String
deriving DecidableEq, Repr

/-- `BatchClassificationResult`: a classification tagged with its email id. -/
structure BatchClassificationResult where
  emailId : String
  classification : Classification
deriving DecidableEq, Repr

/-- The internal-sender test of `postProcessClassification`:
`senderEmail.toLowerCase().split("@")[1] ?? ""` equals a company domain or
ends with `"." + domain`. -/
def isInternalSender (senderEmail : String) (companyDomains : List String) :
    Bool :=
  let senderDomain := ((jsSplit (jsToLower senderEmail) '@').getD 1 "")
  companyDomains.any fun d =>
    let dl := jsToLower d
    senderDomain = dl || jsEndsWith senderDomain ("." ++ dl)

/-- `postProcessClassification` of `classifier.ts`: company-domain senders
are returned unchanged; non-noreply senders are returned unchanged; noreply
senders get `needsReply`/`needsApproval` forced to `false` with every other
field kept. -/
def postProcessClassification (result : BatchClassificationResult)
    (senderEmail : String) (companyDomains : List String) :
    BatchClassificationResult :=
  if companyDomains ≠ [] ∧ isInternalSender senderEmail companyDomains then
    result
  else if ¬ isNoreplySender senderEmail then result
  else
    { emailId := result.emailId,
      classification :=
        { result.classification with needsReply := false,
                                     needsApproval := false } }

/-- C9: frame property of `postProcessClassification`: for noreply senders
not on a company domain, only `needsReply` and `needsApproval` change (both
to `false`) and the email id and every other field are preserved; for
company-domain senders and for non-matching senders the result is returned
entirely unchanged. -/
theorem postProcessClassification_frame (result : BatchClassificationResult)
    (senderEmail : String) (companyDomains : List String) :
    (isNoreplySender senderEmail = true →
      ¬ (companyDomains ≠ [] ∧ isInternalSender senderEmail companyDomains) →
      postProcessClassification result senderEmail companyDomains =
        { emailId := result.emailId,
          classification :=
            { result.classification with needsReply := false,
                                         needsApproval := false } }) ∧
    (companyDomains ≠ [] ∧ isInternalSender senderEmail companyDomains →
      postProcessClassification result senderEmail companyDomains = result) ∧
    (isNoreplySender senderEmail = false →
      postProcessClassification result senderEmail companyDomains = result) := by
  refine ⟨fun hn hi => ?_, fun hi => ?_, fun hn => ?_⟩
  · simp [postProcessClassification, hi, hn]
  · simp [postProcessClassification, hi]
  · by_cases hi : companyDomains ≠ [] ∧ isInternalSender senderEmail companyDomains
    · simp [postProcessClassification, hi]
    · simp [postProcessClassification, hi, hn]

/-- Witness for C9: a concrete noreply sender off the company domain has its
flags forced false with all other fields intact, and a company-domain sender
is untouched. -/
theorem postProcessClassification_frame_witness :
    postProcessClassification
        ⟨"e1", ⟨2, "finance", true, true, true, [⟨"pay bill", none⟩],
          some "2026-03-06", "bill due", 9/10, ["billing"], "neutral"⟩⟩
        "noreply@bank.com" ["corp.com"] =
      ⟨"e1", ⟨2, "finance", false, false, true, [⟨"pay bill", none⟩],
        some "2026-03-06", "bill due", 9/10, ["billing"], "neutral"⟩⟩ ∧
    postProcessClassification
        ⟨"e2", ⟨3, "fyi", true, false, false, [], none, "s", 1/2, [], "neutral"⟩⟩
        "noreply@corp.com" ["corp.com"] =
      ⟨"e2", ⟨3, "fyi", true, false, false, [], none, "s", 1/2, [], "neutral"⟩⟩ := by
  constructor
  · exact (postProcessClassification_frame _ "noreply@bank.com" ["corp.com"]).1
      (by decide) (by decide)
  · exact (postProcessClassification_frame _ "noreply@corp.com" ["corp.com"]).2.1
      (by decide)

/-! ### Priority engine (`computeEffectivePriority` in `agent-pipeline.ts`) -/

/-- JS truthiness of an optional string (`undefined`, `null` and `""` are
falsy). -/
def strTruthy : Option String → Bool
  | none => false
  | some s => !(s = "")

/-- `EffectivePriorityOptions` of `agent-pipeline.ts`.  Absent boolean
options are falsy, hence modelled as `false`; numbers are rationals and
`Date`s are millisecond timestamps. -/
structure EffectivePriorityOptions where
  needsReply : Bool := false
  handled : Bool := false
  receivedAt : Option ℚ := none
  isVipSender : Bool := false
  senderDomain : Option String := none
  companyDomains : List String := []
  actionItems : List ActionItem := []
  isFollowUp : Bool := false
  isEscalation : Bool := false
  senderVelocityAnomaly : Bool := false
  senderRelationship : Option String := none
  isThreadActive : Bool := false
  confidence : Option ℚ := none
  isStarred : Bool := false
  avgResponseTime : Option ℚ := none
  threadResolved : Bool := false
deriving Repr

/-- `businessDaysBetween` of `agent-pipeline.ts`: number of weekdays
(Mon–Fri) strictly between the midnight floors of the two timestamps.
Midnight flooring (`setHours(0,0,0,0)`) is modelled in UTC: epoch day `0`
(1970-01-01) was a Thursday, so `getDay() = (epochDay + 4) mod 7`. -/
def businessDaysBetween (startMs endMs : ℚ) : ℕ :=
  if endMs ≤ startMs then 0
  else
    let d0 := ⌊startMs / msPerDay⌋
    let d1 := ⌊endMs / msPerDay⌋
    (List.range (d1 - d0).toNat).countP fun i =>
      let day := (d0 + i + 4) % 7
      decide (day ≠ 0 ∧ day ≠ 6)

/-- The effective deadline: earliest of the stored deadline and all valid
(parseable, non-falsy) action-item due dates. -/
def effectiveDeadlineOf (parse : String → Option ℚ) (deadline : Option ℚ)
    (items : List ActionItem) : Option ℚ :=
  items.foldl
    (fun eff item =>
      match item.dueDate with
      | none => eff
      | some ds =>
        if ds = "" then eff
        else
          match parse ds with
          | none => eff
          | some t =>
            match eff with
            | none => some t
            | some cur => if t < cur then some t else eff)
    deadline

/-- The deadline-proximity band of `computeEffectivePriority`: overdue
decay (≤7d → 1, ≤30d → 2, ≤90d → 3, else stored) and upcoming escalation
(≤2d → 1, ≤6d → 2, ≤14d → 3, else stored). -/
def deadlinePriorityOf (storedPriority : Int) (now dl : ℚ) : Int :=
  let daysUntil := (dl - now) / msPerDay
  if daysUntil ≤ 0 then
    let daysOverdue := |daysUntil|
    if daysOverdue ≤ 7 then 1
    else if daysOverdue ≤ 30 then 2
    else if daysOverdue ≤ 90 then 3
    else storedPriority
  else if daysUntil ≤ 2 then 1
  else if daysUntil ≤ 6 then 2
  else if daysUntil ≤ 14 then 3
  else storedPriority

/-- Deadline stage: `effectivePriority = min(effectivePriority,
deadlinePriority)` when an effective deadline exists. -/
def deadlineStage (storedPriority : Int) (now : ℚ) (effDl : Option ℚ)
    (p : Int) : Int :=
  match effDl with
  | none => p
  | some dl => min p (deadlinePriorityOf storedPriority now dl)

/-- The age band of the unanswered-email escalation: thresholds adapt to the
sender's average response time (hours) when positive, else default to 5/2/1
business days; the age is `max(businessDays, calendarDays * 0.6)`. -/
def agePriorityOf (storedPriority : Int) (now receivedAt : ℚ)
    (avgResponseTime : Option ℚ) : Int :=
  let bizDays : ℚ := businessDaysBetween receivedAt now
  let calendarDays := (now - receivedAt) / msPerDay
  let ageForThreshold := max bizDays (calendarDays * mkRat 6 10)
  let thresholds : ℚ × ℚ × ℚ :=
    match avgResponseTime with
    | some avgHours =>
      if 0 < avgHours then
        let baseWindowDays := max 1 ((avgHours * mkRat 15 10) / 24)
        (baseWindowDays * 3, baseWindowDays, baseWindowDays * mkRat 5 10)
      else (5, 2, 1)
    | none => (5, 2, 1)
  if thresholds.1 < ageForThreshold then 1
  else if thresholds.2.1 < ageForThreshold then 2
  else if thresholds.2.2 < ageForThreshold then min storedPriority 3
  else storedPriority

/-- Age stage, applied only to unanswered (`needsReply`, not handled) emails
with a receipt time. -/
def ageStage (opts : EffectivePriorityOptions) (storedPriority : Int)
    (now : ℚ) (p : Int) : Int :=
  if opts.needsReply ∧ ¬ opts.handled then
    match opts.receivedAt with
    | some r =>
      min p (agePriorityOf storedPriority now r opts.avgResponseTime)
    | none => p
  else p

/-- A signal boost: `Math.max(1, Math.min(effectivePriority,
storedPriority - k))`. -/
def boost (p storedPriority k : Int) : Int := max 1 (min p (storedPriority - k))

/-- Follow-up boost (escalate by 1 level). -/
def followUpStage (opts : EffectivePriorityOptions) (storedPriority p : Int) :
    Int :=
  if opts.isFollowUp ∧ ¬ opts.handled then boost p storedPriority 1 else p

/-- Escalation boost (escalate by 2 levels). -/
def escalationStage (opts : EffectivePriorityOptions) (storedPriority p : Int) :
    Int :=
  if opts.isEscalation ∧ ¬ opts.handled then boost p storedPriority 2 else p

/-- Sender-velocity-anomaly boost (escalate by 1 level). -/
def velocityStage (opts : EffectivePriorityOptions) (storedPriority p : Int) :
    Int :=
  if opts.senderVelocityAnomaly ∧ ¬ opts.handled then boost p storedPriority 1
  else p

/-- VIP floor: ensure at least P2. -/
def vipStage (opts : EffectivePriorityOptions) (p : Int) : Int :=
  if opts.isVipSender ∧ 2 < p then 2 else p

/-- Provider starred/important floor: ensure at least P2. -/
def starredStage (opts : EffectivePriorityOptions) (p : Int) : Int :=
  if opts.isStarred ∧ 2 < p then 2 else p

/-- Company-domain floor: ensure at least P3 for internal senders
(subdomains supported). -/
def domainStage (opts : EffectivePriorityOptions) (p : Int) : Int :=
  if strTruthy opts.senderDomain ∧ opts.companyDomains ≠ [] then
    let sd := jsToLower (opts.senderDomain.getD "")
    let isInternal := opts.companyDomains.any fun d =>
      let dl := jsToLower d
      sd = dl || jsEndsWith sd ("." ++ dl)
    if isInternal ∧ 3 < p then 3 else p
  else p

/-- Sender-relationship adjustments: `automated` relationship lowers a value
above 4 to 4; `colleague`/`manager` ensure at least P3. -/
def relationshipStage (opts : EffectivePriorityOptions) (p : Int) : Int :=
  match opts.senderRelationship with
  | none => p
  | some rel0 =>
    if rel0 = "" then p
    else
      let rel := jsToLower rel0
      let a := if rel = "automated" ∧ 4 < p then 4 else p
      if (rel = "colleague" ∨ rel = "manager") ∧ 3 < a then 3 else a

/-- Active-thread-with-pending-reply boost (escalate by 1 level). -/
def threadActiveStage (opts : EffectivePriorityOptions)
    (storedPriority p : Int) : Int :=
  if opts.isThreadActive ∧ opts.needsReply ∧ ¬ opts.handled then
    boost p storedPriority 1
  else p

/-- Confidence guard: a low-confidence (`< 0.6`) priority of 1 or 2 is
demoted to at least 3 — but only when no effective deadline exists at all
(`hasDeadlineEscalation = !!effectiveDeadline`). -/
def confidenceStage (confidence : Option ℚ) (effDl : Option ℚ) (p : Int) :
    Int :=
  match confidence with
  | none => p
  | some c =>
    if c < mkRat 6 10 ∧ p ≤ 2 then
      if effDl.isSome then p else max p 3
    else p

/-- `computeEffectivePriority` of `agent-pipeline.ts`: handled emails keep
their stored priority; resolved threads are capped via
`max(storedPriority, 4)`; otherwise the stages run in source order on the
accumulator initialised to `storedPriority`. -/
def computeEffectivePriority (parse : String → Option ℚ) (now : ℚ)
    (storedPriority : Int) (deadline : Option ℚ)
    (opts : EffectivePriorityOptions) : Int :=
  if opts.handled then storedPriority
  else if opts.threadResolved then max storedPriority 4
  else
    let effDl := effectiveDeadlineOf parse deadline opts.actionItems
    confidenceStage opts.confidence effDl
      (threadActiveStage opts storedPriority
        (relationshipStage opts
          (domainStage opts
            (starredStage opts
              (vipStage opts
                (velocityStage opts storedPriority
                  (escalationStage opts storedPriority
                    (followUpStage opts storedPriority
                      (ageStage opts storedPriority now
                        (deadlineStage storedPriority now effDl
                          storedPriority))))))))))

theorem deadlinePriorityOf_bounds (sp : Int) (now dl : ℚ) (h1 : 1 ≤ sp)
    (h5 : sp ≤ 5) :
    1 ≤ deadlinePriorityOf sp now dl ∧ deadlinePriorityOf sp now dl ≤ 5 := by
  unfold deadlinePriorityOf
  dsimp only
  split_ifs <;> omega

theorem deadlineStage_bounds (sp : Int) (now : ℚ) (effDl : Option ℚ)
    (p : Int) (h1 : 1 ≤ sp) (h5 : sp ≤ 5) (hp1 : 1 ≤ p) (hp5 : p ≤ 5) :
    1 ≤ deadlineStage sp now effDl p ∧ deadlineStage sp now effDl p ≤ 5 := by
  cases effDl with
  | none => exact ⟨hp1, hp5⟩
  | some dl =>
    have h := deadlinePriorityOf_bounds sp now dl h1 h5
    simp only [deadlineStage]
    omega

theorem agePriorityOf_bounds (sp : Int) (now r : ℚ) (avg : Option ℚ)
    (h1 : 1 ≤ sp) (h5 : sp ≤ 5) :
    1 ≤ agePriorityOf sp now r avg ∧ agePriorityOf sp now r avg ≤ 5 := by
  unfold agePriorityOf
  cases avg with
  | none => dsimp only; split_ifs <;> omega
  | some avgHours => dsimp only; split_ifs <;> omega

theorem ageStage_bounds (opts : EffectivePriorityOptions) (sp : Int) (now : ℚ)
    (p : Int) (h1 : 1 ≤ sp) (h5 : sp ≤ 5) (hp1 : 1 ≤ p) (hp5 : p ≤ 5) :
    1 ≤ ageStage opts sp now p ∧ ageStage opts sp now p ≤ 5 := by
  unfold ageStage
  split_ifs with h
  · cases hre : opts.receivedAt with
    | none => simp only [hre]; exact ⟨hp1, hp5⟩
    | some r =>
      simp only [hre]
      have hb := agePriorityOf_bounds sp now r opts.avgResponseTime h1 h5
      omega
  · exact ⟨hp1, hp5⟩

theorem boost_bounds (p sp k : Int) (hp1 : 1 ≤ p) (hp5 : p ≤ 5) :
    1 ≤ boost p sp k ∧ boost p sp k ≤ 5 := by
  unfold boost
  omega

theorem computeEffectivePriority_range_aux
    (opts : EffectivePriorityOptions) (sp p : Int)
    (h1 : 1 ≤ sp) (h5 : sp ≤ 5) (hp1 : 1 ≤ p) (hp5 : p ≤ 5)
    (effDl : Option ℚ) :
    1 ≤ confidenceStage opts.confidence effDl
          (threadActiveStage opts sp
            (relationshipStage opts
              (domainStage opts
                (starredStage opts
                  (vipStage opts
                    (velocityStage opts sp
                      (escalationStage opts sp
                        (followUpStage opts sp p)))))))) ∧
      confidenceStage opts.confidence effDl
          (threadActiveStage opts sp
            (relationshipStage opts
              (domainStage opts
                (starredStage opts
                  (vipStage opts
                    (velocityStage opts sp
                      (escalationStage opts sp
                        (followUpStage opts sp p)))))))) ≤ 5 := by
  have hf : 1 ≤ followUpStage opts sp p ∧ followUpStage opts sp p ≤ 5 := by
    unfold followUpStage
    split_ifs with h
    · exact boost_bounds p sp 1 hp1 hp5
    · exact ⟨hp1, hp5⟩
  generalize followUpStage opts sp p = q1 at hf
  have he : 1 ≤ escalationStage opts sp q1 ∧ escalationStage opts sp q1 ≤ 5 := by
    unfold escalationStage
    split_ifs with h
    · exact boost_bounds q1 sp 2 hf.1 hf.2
    · exact hf
  generalize escalationStage opts sp q1 = q2 at he
  have hv : 1 ≤ velocityStage opts sp q2 ∧ velocityStage opts sp q2 ≤ 5 := by
    unfold velocityStage
    split_ifs with h
    · exact boost_bounds q2 sp 1 he.1 he.2
    · exact he
  generalize velocityStage opts sp q2 = q3 at hv
  have hvip : 1 ≤ vipStage opts q3 ∧ vipStage opts q3 ≤ 5 := by
    unfold vipStage
    split_ifs <;> omega
  generalize vipStage opts q3 = q4 at hvip
  have hst : 1 ≤ starredStage opts q4 ∧ starredStage opts q4 ≤ 5 := by
    unfold starredStage
    split_ifs <;> omega
  generalize starredStage opts q4 = q5 at hst
  have hdom : 1 ≤ domainStage opts q5 ∧ domainStage opts q5 ≤ 5 := by
    unfold domainStage
    dsimp only
    split_ifs <;> omega
  generalize domainStage opts q5 = q6 at hdom
  have hrel : 1 ≤ relationshipStage opts q6 ∧ relationshipStage opts q6 ≤ 5 := by
    unfold relationshipStage
    cases opts.senderRelationship with
    | none => exact hdom
    | some rel0 => dsimp only; split_ifs <;> omega
  generalize relationshipStage opts q6 = q7 at hrel
  have hta : 1 ≤ threadActiveStage opts sp q7 ∧
      threadActiveStage opts sp q7 ≤ 5 := by
    unfold threadActiveStage
    split_ifs with h
    · exact boost_bounds q7 sp 1 hrel.1 hrel.2
    · exact hrel
  generalize threadActiveStage opts sp q7 = q8 at hta
  unfold confidenceStage
  cases opts.confidence with
  | none => exact hta
  | some c =>
    dsimp only
    split_ifs <;> omega

/-- C4: for every stored priority in the declared range 1–5 and every
combination of deadline, action items, clock, date parser and option
signals, `computeEffectivePriority` stays in `[1, 5]` (integrality is by
construction: the embedding computes in `ℤ`). -/
theorem computeEffectivePriority_range (parse : String → Option ℚ) (now : ℚ)
    (sp : Int) (deadline : Option ℚ) (opts : EffectivePriorityOptions)
    (h1 : 1 ≤ sp) (h5 : sp ≤ 5) :
    1 ≤ computeEffectivePriority parse now sp deadline opts ∧
      computeEffectivePriority parse now sp deadline opts ≤ 5 := by
  unfold computeEffectivePriority
  split_ifs with hh hr
  · exact ⟨h1, h5⟩
  · omega
  · have hd := deadlineStage_bounds sp now
      (effectiveDeadlineOf parse deadline opts.actionItems) sp h1 h5 h1 h5
    have ha := ageStage_bounds opts sp now _ h1 h5 hd.1 hd.2
    exact computeEffectivePriority_range_aux opts sp _ h1 h5 ha.1 ha.2 _

/-- Witness for C4 at a concrete input: stored priority 2, an overdue
deadline, a VIP automated sender with low confidence. -/
theorem computeEffectivePriority_range_witness :
    1 ≤ computeEffectivePriority (fun _ => none) (10 * msPerDay) 2
          (some msPerDay)
          { isVipSender := true, senderRelationship := some "automated",
            confidence := some (2/5) } ∧
      computeEffectivePriority (fun _ => none) (10 * msPerDay) 2
          (some msPerDay)
          { isVipSender := true, senderRelationship := some "automated",
            confidence := some (2/5) } ≤ 5 :=
  computeEffectivePriority_range (fun _ => none) (10 * msPerDay) 2
    (some msPerDay) _ (by decide) (by decide)

/-- C10: the `handled` early return precedes the `threadResolved` cap, so a
handled email in a resolved thread keeps its stored priority. -/
theorem handled_precedes_threadResolved (parse : String → Option ℚ) (now : ℚ)
    (sp : Int) (deadline : Option ℚ) (opts : EffectivePriorityOptions)
    (hh : opts.handled = true) (hr : opts.threadResolved = true) :
    computeEffectivePriority parse now sp deadline opts = sp := by
  unfold computeEffectivePriority
  simp [hh]

/-- Witness for C10: a handled priority-1 email in a resolved thread keeps
effective priority 1 (instead of the `max(storedPriority, 4) = 4` the
resolution cap alone would give). -/
theorem handled_precedes_threadResolved_witness :
    computeEffectivePriority (fun _ => none) 0 1 none
        { handled := true, threadResolved := true } = 1 :=
  handled_precedes_threadResolved (fun _ => none) 0 1 none
    { handled := true, threadResolved := true } rfl rfl

/-- C2 (code bug): an email whose sender relationship is `"automated"`, with
stored priority 2 and no other signals, keeps effective priority 2 — the
automated-sender rule `if (rel === "automated" && effectivePriority > 4)
effectivePriority = 4` only lowers 5 to 4 and never de-escalates to ≥ 4,
contradicting the inline comment "cap at P4" (which the `threadResolved`
path implements as `Math.max(storedPriority, 4)`) and the spec. -/
theorem automated_sender_not_deescalated (parse : String → Option ℚ)
    (now : ℚ) :
    computeEffectivePriority parse now 2 none
        { senderRelationship := some "automated" } = 2 := by
  rfl

/-- C3 (counterexample): confidence 0.4 < 0.6, computed priority 1, and a
deadline 100 days out whose proximity band did **not** lower the priority
(`daysUntil > 14` reverts to the stored priority) — yet no demotion to ≥ 3
happens, because the guard tests `!!effectiveDeadline` (deadline existence),
not whether the deadline contributed. -/
theorem lowConfidence_far_deadline_not_demoted :
    computeEffectivePriority (fun _ => none) 0 1 (some (100 * msPerDay))
        { confidence := some (2/5) } = 1 := by
  norm_num [computeEffectivePriority, effectiveDeadlineOf, deadlineStage,
    deadlinePriorityOf, ageStage, followUpStage, escalationStage,
    velocityStage, vipStage, starredStage, domainStage, relationshipStage,
    threadActiveStage, confidenceStage, boost, strTruthy, msPerDay,
    Rat.mkRat_eq_div]

theorem confidenceStage_ge_three (c : ℚ) (p : Int) (hc : c < mkRat 6 10) :
    3 ≤ confidenceStage (some c) none p := by
  unfold confidenceStage
  dsimp only
  split_ifs with h h2
  · exact absurd h2 (by simp)
  · omega
  · rcases not_and_or.1 h with h | h
    · exact absurd hc h
    · omega

/-- C3 (amended): the demotion fires exactly when no effective deadline
exists at all: if confidence < 0.6, the email is neither handled nor
thread-resolved, and neither the stored deadline nor any valid action-item
due date is present, the result is at least 3; when any effective deadline
exists — even one whose proximity band did not lower the priority — the
guard is skipped. -/
theorem confidenceGuard_demotes_without_deadline (parse : String → Option ℚ)
    (now : ℚ) (sp : Int) (deadline : Option ℚ)
    (opts : EffectivePriorityOptions) (c : ℚ)
    (hh : opts.handled = false) (hr : opts.threadResolved = false)
    (hc : opts.confidence = some c) (hclt : c < 0.6)
    (hdl : effectiveDeadlineOf parse deadline opts.actionItems = none) :
    3 ≤ computeEffectivePriority parse now sp deadline opts := by
  unfold computeEffectivePriority
  simp only [hh, hr, Bool.false_eq_true, if_false, hdl, hc]
  refine confidenceStage_ge_three c _ ?_
  have he : (mkRat 6 10 : ℚ) = 0.6 := by norm_num [Rat.mkRat_eq_div]
  rw [he]
  exact hclt

/-- Witness for the amended C3: the spec scenario — confidence 0.4, stored
priority 1, no deadline — is demoted to exactly 3. -/
theorem confidenceGuard_demotes_without_deadline_witness :
    3 ≤ computeEffectivePriority (fun _ => none) 0 1 none
          { confidence := some (2/5) } ∧
      computeEffectivePriority (fun _ => none) 0 1 none
          { confidence := some (2/5) } = 3 :=
  ⟨confidenceGuard_demotes_without_deadline (fun _ => none) 0 1 none
      { confidence := some (2/5) } (2/5) rfl rfl rfl (by norm_num) rfl,
    by norm_num [computeEffectivePriority, effectiveDeadlineOf, deadlineStage,
      deadlinePriorityOf, ageStage, followUpStage, escalationStage,
      velocityStage, vipStage, starredStage, domainStage, relationshipStage,
      threadActiveStage, confidenceStage, boost, strTruthy, msPerDay,
      Rat.mkRat_eq_div]⟩

/-! ### Self-tuning confidence thresholds (Step 4d of `runAgentPipeline`) -/

/-- `BASE_THRESHOLDS` of the self-tuning block in `agent-pipeline.ts`. -/
def BASE_THRESHOLDS : List (String × ℚ) :=
  [("spam", mkRat 6 10), ("newsletter", mkRat 6 10),
   ("marketing", mkRat 6 10), ("social", mkRat 6 10),
   ("shipping", mkRat 6 10), ("notification", mkRat 6 10),
   ("meeting", mkRat 65 100), ("travel", mkRat 65 100),
   ("finance", mkRat 7 10), ("security", mkRat 7 10),
   ("personal", mkRat 7 10), ("support", mkRat 7 10),
   ("fyi", mkRat 75 100), ("task", mkRat 75 100),
   ("reply-needed", mkRat 8 10), ("approval", mkRat 8 10)]

/-- The per-category loop body of the self-tuning computation (lines
1004–1015 of `agent-pipeline.ts`), as a pure function of the category and
its trailing-window statistics.  `none` models "no entry written" (the
`continue` for `total < 5` and the skipped `overrideRate ≤ 0.2` case). -/
def tunedThreshold (category : String) (total overrides : ℕ) : Option ℚ :=
  if total < 5 then none
  else
    let overrideRate : ℚ := overrides / total
    if mkRat 2 10 < overrideRate then
      let reduction := min (mkRat 15 100)
        ((overrideRate - mkRat 2 10) * mkRat 5 10 + mkRat 5 100)
      let base := lookupD BASE_THRESHOLDS category (mkRat 7 10)
      some (max (mkRat 4 10) (base - reduction))
    else none

theorem baseThreshold_ge (category : String) :
    0.6 ≤ lookupD BASE_THRESHOLDS category (mkRat 7 10) := by
  rcases lookupD_mem_or_default BASE_THRESHOLDS category (mkRat 7 10)
    with h | h
  · have : ∀ v ∈ BASE_THRESHOLDS.map Prod.snd, (0.6 : ℚ) ≤ v := by
      intro v hv
      simp only [BASE_THRESHOLDS, List.map_cons, List.map_nil,
        List.mem_cons, List.not_mem_nil, or_false] at hv
      rcases hv with h | h | h | h | h | h | h | h | h | h | h | h | h | h
        | h | h <;> rw [h] <;> norm_num [Rat.mkRat_eq_div]
    exact this _ h
  · rw [h]; norm_num [Rat.mkRat_eq_div]

/-- C6: a category with at least 5 classifications in the trailing window
and an override rate of exactly 40% gets a tuned threshold that is strictly
below its static baseline and at least 0.4 (in fact the reduction saturates
at 0.15). -/
theorem tunedThreshold_strictly_below_base (category : String)
    (total overrides : ℕ) (htot : 5 ≤ total)
    (hrate : (overrides : ℚ) / total = 2 / 5) :
    ∃ t, tunedThreshold category total overrides = some t ∧
      t < lookupD BASE_THRESHOLDS category (mkRat 7 10) ∧ (0.4 : ℚ) ≤ t := by
  have hbase := baseThreshold_ge category
  have e4 : (mkRat 4 10 : ℚ) = 0.4 := by norm_num [Rat.mkRat_eq_div]
  have e15 : (mkRat 15 100 : ℚ) = 0.15 := by norm_num [Rat.mkRat_eq_div]
  refine ⟨max (mkRat 4 10)
    (lookupD BASE_THRESHOLDS category (mkRat 7 10) - mkRat 15 100),
    ?_, ?_, ?_⟩
  · unfold tunedThreshold
    rw [if_neg (by omega)]
    dsimp only
    rw [hrate]
    rw [if_pos (by norm_num [Rat.mkRat_eq_div])]
    have hred : min (mkRat 15 100 : ℚ)
        (((2 : ℚ) / 5 - mkRat 2 10) * mkRat 5 10 + mkRat 5 100) =
          mkRat 15 100 := by
      norm_num [Rat.mkRat_eq_div]
    rw [hred]
  · rw [e4, e15, max_lt_iff]
    constructor <;> linarith
  · rw [e4]
    exact le_max_left _ _

/-- Witness for C6: category `"fyi"` (baseline 0.75) with 5 classifications
and 2 overrides (rate 40%) gets threshold 0.6 — strictly below 0.75 and
above 0.4. -/
theorem tunedThreshold_strictly_below_base_witness :
    ∃ t, tunedThreshold "fyi" 5 2 = some t ∧
      t < lookupD BASE_THRESHOLDS "fyi" (mkRat 7 10) ∧ (0.4 : ℚ) ≤ t :=
  tunedThreshold_strictly_below_base "fyi" 5 2 (by norm_num) (by norm_num)

/-! ### Classification engine (`classifyEmails` in `classifier.ts`)

The LLM call is a parameter
`oracle : List ClassificationInput → Bool → Option (List RawItem)`
(the `Bool` is `includeBody`): `some items` models the first schema-valid
JSON response obtained within the retry loop, `none` models exhaustion of
all retries, after which the source falls back to `classifyWithRules` for
every email of the batch — `classifyBatch` therefore never throws, and the
`errors` list of `classifyEmails` (filled only from a `classifyBatch`
exception) stays empty.  `formatEmailForClassification` is a prompt
renderer whose only influence on control flow is its output length, modelled
by the parameter `sz`; the regex date pre-scan `extractDatesFromText` is
likewise passed as a parameter.  None of the claims proved below depend on
`sz` or on the date scan. -/

/-- Attachment metadata (filename + MIME type). -/
structure AttachmentMeta where
  filename : String
  mimeType : String
deriving DecidableEq, Repr

/-- The fields of `ClassificationInput` referenced by the embedded functions
(the remaining fields only feed the abstracted prompt renderer). -/
structure ClassificationInput where
  emailId : String
  «from» : String
  subject : String
  snippet : Option String
  bodyText : Option String
  receivedAt : ℚ
  labels : List String
  hasAttachments : Bool
  attachments : Option (List AttachmentMeta)
  isMailingList : Bool
deriving DecidableEq, Repr

/-- JS `a || b` on an optional string (`undefined`/`null`/`""` fall through). -/
def jsOrStr (a : Option String) (b : String) : String :=
  match a with
  | none => b
  | some s => if s = "" then b else s

/-- JS `.` (any character except line terminators), for the `sign.?in`
pattern. -/
def isDotChar (c : Char) : Bool :=
  !(c = '\n' || c = '\r' || c = '\u2028' || c = '\u2029')

/-- `\bsign.?in\b` occurs in `s`. -/
def signInOccurs (s : List Char) : Bool :=
  (List.range (s.length + 1)).any fun i =>
    (i == 0 || !isWordChar (s.getD (i - 1) ' '))
    && ((matchesAt s "signin".data i && !isWordChar (s.getD (i + 6) ' '))
      || (matchesAt s "sign".data i && i + 4 < s.length
          && isDotChar (s.getD (i + 4) ' ')
          && matchesAt s "in".data (i + 5)
          && !isWordChar (s.getD (i + 7) ' ')))

/-- `\b(w₁|w₂|…)\b` occurs in `s`. -/
def anyKeyword (s : String) (ws : List String) : Bool :=
  ws.any fun w => wordOccurs s w

/-- `classifyWithRules` of `classifier.ts`: the deterministic keyword /
sender-pattern fallback used when all LLM retries are exhausted, at fixed
confidence 0.3. -/
def classifyWithRules (email : ClassificationInput) : Classification :=
  let fromLower := jsToLower email.«from»
  let subjectLower := jsToLower email.subject
  let isNoreply := isNoreplySender email.«from»
  let isStarred := email.labels.contains "STARRED"
      || email.labels.contains "IMPORTANT"
  let cpr : String × Int × Bool :=
    if email.isMailingList && isNoreply then ("newsletter", 5, false)
    else if isNoreply && anyKeyword subjectLower
        ["order", "shipped", "delivered", "tracking", "shipment", "package"]
      then ("shipping", 4, false)
    else if isNoreply && anyKeyword subjectLower
        ["receipt", "payment", "invoice", "bill", "statement", "transaction",
         "refund"] then ("finance", 4, false)
    else if isNoreply && (anyKeyword subjectLower
        ["password", "verification", "2fa", "security", "login",
         "authenticate"] || signInOccurs subjectLower.data)
      then ("security", 4, false)
    else if (match email.attachments with
             | some l => l.any fun a =>
                 a.mimeType == "text/calendar" || jsEndsWith a.filename ".ics"
             | none => false) then ("meeting", 3, false)
    else if email.isMailingList then ("newsletter", 4, false)
    else if isNoreply then ("notification", 4, false)
    else if anyKeyword fromLower
        ["linkedin", "twitter", "facebook", "instagram"]
      then ("social", 4, false)
    else if jsStartsWith subjectLower "re:" && !isNoreply
      then ("reply-needed", 3, true)
    else if jsStartsWith subjectLower "fwd:" || jsStartsWith subjectLower "fw:"
      then ("fyi", 3, false)
    else ("fyi", 4, false)
  let priority := if isStarred ∧ 2 < cpr.2.1 then 2 else cpr.2.1
  { priority := priority,
    category := cpr.1,
    needsReply := cpr.2.2,
    needsApproval := false,
    isThreadActive := false,
    actionItems := [],
    deadline := none,
    summary := jsOrStr (some (jsTake email.subject 100)) "(no subject)",
    confidence := mkRat 3 10,
    topics := [],
    sentiment := "neutral" }

/-- Raw action items as returned by the model (`z.unknown()`): bare strings,
`{description, dueDate?}` objects, or anything else (kept as its string
rendering `String(item)`). -/
inductive RawActionItem where
  | str (s : String)
  | obj (description : String) (dueDate : Option String)
  | other (rendered : String)
deriving DecidableEq, Repr

/-- `normalizeActionItems` of `classifier.ts`: strings become descriptions,
objects keep their description and get their due date validated
(`validateDateString(raw.dueDate, undefined)`), anything else is
stringified. -/
def normalizeActionItems (parse : String → Option ℚ) (now : ℚ)
    (items : List RawActionItem) : List ActionItem :=
  items.map fun
    | .str s => { description := s, dueDate := none }
    | .obj d dd =>
      { description := d, dueDate := validateDateString parse now dd none }
    | .other r => { description := r, dueDate := none }

/-- A schema-validated element of the model's `classifications` array
(`RawClassificationItemSchema`): the zod defaults (`actionItems := []`,
`deadline := null`, `topics := []`, `sentiment := "neutral"`) are already
applied. -/
structure RawItem where
  emailId : String
  priority : Int
  category : String
  needsReply : Bool
  needsApproval : Bool
  isThreadActive : Bool
  actionItems : List RawActionItem
  deadline : Option String
  summary : String
  confidence : ℚ
  topics : List String
  sentiment : String
deriving DecidableEq, Repr

/-- `ClassifyOptions` (the fields consulted by embedded code;
`overrideExamples` only affects the prompt text). -/
structure ClassifyOptions where
  companyDomains : List String := []
  confidenceOverrides : Option (List (String × ℚ)) := none
deriving Repr

/-- The per-item mapping applied to a validated model response in
`classifyBatch`: deadline validation against the email's receipt time,
category normalization, action-item coercion, summary/topic trimming, and
noreply post-processing when the id maps back to a batch email. -/
def mkBatchResult (parse : String → Option ℚ) (now : ℚ)
    (opts : ClassifyOptions) (batch : List ClassificationInput)
    (c : RawItem) : BatchClassificationResult :=
  let receivedAt := (batch.find? (fun e => e.emailId == c.emailId)).map
    (·.receivedAt)
  let validatedDeadline := validateDateString parse now c.deadline receivedAt
  let result : BatchClassificationResult :=
    { emailId := c.emailId,
      classification :=
        { priority := c.priority,
          category := normalizeCategory c.category,
          needsReply := c.needsReply,
          needsApproval := c.needsApproval,
          isThreadActive := c.isThreadActive,
          actionItems := normalizeActionItems parse now c.actionItems,
          deadline := validatedDeadline,
          summary := jsTake c.summary 200,
          confidence := c.confidence,
          topics := (c.topics.take 3).map fun t => jsTrim (jsToLower t),
          sentiment := c.sentiment } }
  match (batch.find? (fun e => e.emailId == c.emailId)).map (·.«from») with
  | some sender => postProcessClassification result sender opts.companyDomains
  | none => result

/-- `classifyBatch` of `classifier.ts`: a schema-valid response is mapped
through `mkBatchResult`; retry exhaustion (`none`) falls back to
`classifyWithRules` on every email of the batch.  Never throws. -/
def classifyBatchM
    (oracle : List ClassificationInput → Bool → Option (List RawItem))
    (parse : String → Option ℚ) (now : ℚ) (opts : ClassifyOptions)
    (batch : List ClassificationInput) (includeBody : Bool) :
    List BatchClassificationResult :=
  match oracle batch includeBody with
  | some items => items.map (mkBatchResult parse now opts batch)
  | none => batch.map fun e =>
      { emailId := e.emailId, classification := classifyWithRules e }

/-- `CONFIDENCE_THRESHOLDS` of `classifier.ts`. -/
def CONFIDENCE_THRESHOLDS : List (String × ℚ) :=
  [("spam", mkRat 6 10), ("newsletter", mkRat 6 10),
   ("marketing", mkRat 6 10), ("social", mkRat 6 10),
   ("shipping", mkRat 6 10), ("notification", mkRat 6 10),
   ("meeting", mkRat 65 100), ("travel", mkRat 65 100),
   ("finance", mkRat 7 10), ("security", mkRat 7 10),
   ("personal", mkRat 7 10), ("support", mkRat 7 10),
   ("fyi", mkRat 75 100), ("task", mkRat 75 100),
   ("reply-needed", mkRat 8 10), ("approval", mkRat 8 10)]

/-- `HIGH_STAKES_CATEGORIES` of `classifier.ts`. -/
def HIGH_STAKES_CATEGORIES : List String := ["approval", "reply-needed", "task"]

/-- JS falsiness of the (string-or-null) deadline field. -/
def deadlineFalsy : Option String → Bool
  | none => true
  | some s => s = ""

/-- `needsReclassification` of `classifier.ts`: high-stakes categories below
0.9; model-missed regex-detected dates; otherwise the per-category
confidence threshold (dynamic override, else static, else 0.7). -/
def needsReclassificationM (extractDates : String → List String)
    (confidenceOverrides : Option (List (String × ℚ)))
    (r : BatchClassificationResult)
    (originalEmail : Option ClassificationInput) : Bool :=
  let category := r.classification.category
  let confidence := r.classification.confidence
  if category ∈ HIGH_STAKES_CATEGORIES ∧ confidence < mkRat 9 10 then true
  else if deadlineFalsy r.classification.deadline
      && (match originalEmail with
          | some e =>
            !(extractDates (jsOrStr e.bodyText (jsOrStr e.snippet ""))).isEmpty
          | none => false) then true
  else
    let dynamicT := match confidenceOverrides with
      | some m => assocLookup m category
      | none => none
    let threshold := match dynamicT with
      | some t => t
      | none => lookupD CONFIDENCE_THRESHOLDS category (mkRat 7 10)
    confidence < threshold

/-- `MAX_INPUT_CHARS_PER_BATCH`. -/
def MAX_INPUT_CHARS_PER_BATCH : ℕ := 50000

/-- `BASE_BATCH_SIZE`. -/
def BASE_BATCH_SIZE : ℕ := 12

/-- The accumulator loop of `splitIntoBatches`: flush the current batch when
it is nonempty and adding the next email would exceed the character budget
or the batch is already at the maximum item count. -/
def splitGo (sz : ClassificationInput → ℕ) :
    List ClassificationInput → List ClassificationInput → ℕ →
      List (List ClassificationInput)
  | [], cur, _ => if cur = [] then [] else [cur]
  | e :: rest, cur, chars =>
    let c := sz e
    if cur ≠ [] ∧ (MAX_INPUT_CHARS_PER_BATCH < chars + c
        ∨ BASE_BATCH_SIZE ≤ cur.length) then
      cur :: splitGo sz rest [e] c
    else splitGo sz rest (cur ++ [e]) (chars + c)

/-- `splitIntoBatches` of `classifier.ts`; `sz e` models
`formatEmailForClassification(e, 0, includeBody, options).length`. -/
def splitIntoBatches (sz : ClassificationInput → ℕ)
    (emails : List ClassificationInput) : List (List ClassificationInput) :=
  splitGo sz emails [] 0

/-- The re-classification block for the low-confidence subset of one batch:
the matching emails are re-batched and re-classified with the full body. -/
def reclassifyLow
    (oracle : List ClassificationInput → Bool → Option (List RawItem))
    (parse : String → Option ℚ) (now : ℚ) (sz : ClassificationInput → Bool → ℕ)
    (opts : ClassifyOptions) (batch : List ClassificationInput)
    (lowIds : List String) : List BatchClassificationResult :=
  let lowConfEmails := batch.filter fun e => e.emailId ∈ lowIds
  ((splitIntoBatches (fun e => sz e true) lowConfEmails).map fun reBatch =>
    classifyBatchM oracle parse now opts reBatch true).flatten

/-- The per-batch body of the main loop of `classifyEmails`: first pass,
split by `needsReclassification`, high-confidence results kept, low-
confidence results re-classified with the full body. -/
def processBatch
    (oracle : List ClassificationInput → Bool → Option (List RawItem))
    (parse : String → Option ℚ) (now : ℚ) (sz : ClassificationInput → Bool → ℕ)
    (extractDates : String → List String) (opts : ClassifyOptions)
    (batch : List ClassificationInput) : List BatchClassificationResult :=
  let batchResults := classifyBatchM oracle parse now opts batch false
  let isLow := fun (r : BatchClassificationResult) =>
    needsReclassificationM extractDates opts.confidenceOverrides r
      (batch.find? fun e => e.emailId == r.emailId)
  let lowConfidence := batchResults.filter isLow
  let highConfidence := batchResults.filter fun r => !isLow r
  highConfidence ++
    (if lowConfidence = [] then []
     else reclassifyLow oracle parse now sz opts batch
       (lowConfidence.map (·.emailId)))

/-- `classifyEmails` of `classifier.ts`.  The error list is filled only when
`classifyBatch` throws, which it never does (rule-based fallback instead of
a final rethrow), so it is always empty. -/
def classifyEmailsM
    (oracle : List ClassificationInput → Bool → Option (List RawItem))
    (parse : String → Option ℚ) (now : ℚ) (sz : ClassificationInput → Bool → ℕ)
    (extractDates : String → List String) (opts : ClassifyOptions)
    (emails : List ClassificationInput) :
    List BatchClassificationResult × List (String × String) :=
  (((splitIntoBatches (fun e => sz e false) emails).map fun batch =>
      processBatch oracle parse now sz extractDates opts batch).flatten,
   [])

theorem splitGo_flatten (sz : ClassificationInput → ℕ) :
    ∀ (l cur : List ClassificationInput) (ch : ℕ),
      (splitGo sz l cur ch).flatten = cur ++ l := by
  intro l
  induction l with
  | nil =>
    intro cur ch
    by_cases h : cur = [] <;> simp [splitGo, h]
  | cons e rest ih =>
    intro cur ch
    unfold splitGo
    dsimp only
    split_ifs with h
    · simp [ih]
    · simp [ih]

theorem splitIntoBatches_flatten (sz : ClassificationInput → ℕ)
    (emails : List ClassificationInput) :
    (splitIntoBatches sz emails).flatten = emails := by
  simpa [splitIntoBatches] using splitGo_flatten sz emails [] 0

theorem postProcessClassification_emailId (r : BatchClassificationResult)
    (s : String) (d : List String) :
    (postProcessClassification r s d).emailId = r.emailId := by
  unfold postProcessClassification
  split_ifs <;> rfl

theorem mkBatchResult_emailId (parse : String → Option ℚ) (now : ℚ)
    (opts : ClassifyOptions) (batch : List ClassificationInput) (c : RawItem) :
    (mkBatchResult parse now opts batch c).emailId = c.emailId := by
  unfold mkBatchResult
  cases (batch.find? (fun e => e.emailId == c.emailId)).map (·.«from») with
  | none => rfl
  | some sender => exact postProcessClassification_emailId _ _ _

theorem classifyBatchM_ids_perm
    (oracle : List ClassificationInput → Bool → Option (List RawItem))
    (parse : String → Option ℚ) (now : ℚ) (opts : ClassifyOptions)
    (hor : ∀ b inc items, oracle b inc = some items →
      (items.map RawItem.emailId).Perm (b.map ClassificationInput.emailId))
    (batch : List ClassificationInput) (inc : Bool) :
    ((classifyBatchM oracle parse now opts batch inc).map (·.emailId)).Perm
      (batch.map (·.emailId)) := by
  unfold classifyBatchM
  cases ho : oracle batch inc with
  | some items =>
    have h := hor batch inc items ho
    have hmap : (items.map (mkBatchResult parse now opts batch)).map
        (·.emailId) = items.map RawItem.emailId := by
      rw [List.map_map]
      exact List.map_congr_left fun c _ => mkBatchResult_emailId _ _ _ _ c
    rw [hmap]
    exact h
  | none =>
    rw [List.map_map]
    exact List.Perm.refl _

theorem map_emailId_filter (batch : List ClassificationInput)
    (q : String → Bool) :
    ((batch.filter fun e => q e.emailId).map (·.emailId)) =
      (batch.map (·.emailId)).filter q := by
  induction batch with
  | nil => rfl
  | cons hd tl ih =>
    by_cases h : q hd.emailId <;> simp [List.filter_cons, h, ih]

theorem reclassifyLow_ids_perm
    (oracle : List ClassificationInput → Bool → Option (List RawItem))
    (parse : String → Option ℚ) (now : ℚ) (sz : ClassificationInput → Bool → ℕ)
    (opts : ClassifyOptions)
    (hor : ∀ b inc items, oracle b inc = some items →
      (items.map RawItem.emailId).Perm (b.map ClassificationInput.emailId))
    (batch : List ClassificationInput) (lowIds : List String)
    (hnd : (batch.map (·.emailId)).Nodup) (hlnd : lowIds.Nodup)
    (hsub : ∀ x ∈ lowIds, x ∈ batch.map (·.emailId)) :
    ((reclassifyLow oracle parse now sz opts batch lowIds).map
        (·.emailId)).Perm lowIds := by
  unfold reclassifyLow
  have hflat : ∀ bs : List (List ClassificationInput),
      (((bs.map fun reBatch =>
          classifyBatchM oracle parse now opts reBatch true).flatten).map
        (·.emailId)).Perm (bs.flatten.map (·.emailId)) := by
    intro bs
    induction bs with
    | nil => exact List.Perm.refl _
    | cons hd tl ih =>
      simp only [List.map_cons, List.flatten_cons, List.map_append]
      exact (classifyBatchM_ids_perm oracle parse now opts hor hd true).append ih
  have h1 := hflat (splitIntoBatches (fun e => sz e true)
    (batch.filter fun e => e.emailId ∈ lowIds))
  rw [splitIntoBatches_flatten] at h1
  refine h1.trans ?_
  have h2 : ((batch.filter fun e => e.emailId ∈ lowIds).map (·.emailId)) =
      (batch.map (·.emailId)).filter fun x => decide (x ∈ lowIds) :=
    map_emailId_filter batch fun x => decide (x ∈ lowIds)
  rw [h2]
  apply (List.perm_ext_iff_of_nodup (hnd.filter _) hlnd).2
  intro a
  simp only [List.mem_filter, decide_eq_true_eq]
  exact ⟨fun h => h.2, fun h => ⟨hsub a h, h⟩⟩

theorem processBatch_ids_perm
    (oracle : List ClassificationInput → Bool → Option (List RawItem))
    (parse : String → Option ℚ) (now : ℚ) (sz : ClassificationInput → Bool → ℕ)
    (extractDates : String → List String) (opts : ClassifyOptions)
    (hor : ∀ b inc items, oracle b inc = some items →
      (items.map RawItem.emailId).Perm (b.map ClassificationInput.emailId))
    (batch : List ClassificationInput)
    (hnd : (batch.map (·.emailId)).Nodup) :
    ((processBatch oracle parse now sz extractDates opts batch).map
        (·.emailId)).Perm (batch.map (·.emailId)) := by
  unfold processBatch
  dsimp only
  set br := classifyBatchM oracle parse now opts batch false with hbr
  set isLow := fun (r : BatchClassificationResult) =>
    needsReclassificationM extractDates opts.confidenceOverrides r
      (batch.find? fun e => e.emailId == r.emailId) with hisLow
  have hperm : (br.map (·.emailId)).Perm (batch.map (·.emailId)) :=
    classifyBatchM_ids_perm oracle parse now opts hor batch false
  have hbrnd : (br.map (·.emailId)).Nodup := (hperm.nodup_iff).2 hnd
  have hlownd : ((br.filter isLow).map (·.emailId)).Nodup :=
    ((List.filter_sublist br).map _).nodup hbrnd
  have hlowsub : ∀ x ∈ (br.filter isLow).map (·.emailId),
      x ∈ batch.map (·.emailId) := by
    intro x hx
    exact hperm.mem_iff.1 (((List.filter_sublist br).map _).mem hx)
  have hsplit : ((br.filter isLow) ++ (br.filter fun r => !isLow r)).Perm br :=
    List.filter_append_perm isLow br
  by_cases hl : br.filter isLow = []
  · rw [hl, if_pos rfl]
    simp only [List.append_nil]
    refine List.Perm.trans ?_ (hperm)
    have := hsplit.map (·.emailId)
    rw [hl] at this
    simpa using this
  · rw [if_neg hl]
    have hre := reclassifyLow_ids_perm oracle parse now sz opts hor batch
      ((br.filter isLow).map (·.emailId)) hnd hlownd hlowsub
    refine List.Perm.trans ?_ hperm
    refine List.Perm.trans ?_ (hsplit.map (·.emailId))
    rw [List.map_append, List.map_append]
    exact (List.Perm.append_left _ hre).trans List.perm_append_comm

/-- C1 (counterexample): a schema-valid LLM response with an empty
`classifications` array is accepted as-is: for the single input `"e1"`,
`classifyEmails` returns `results = []` and `errors = []`, so the input id
appears in neither list — it is silently dropped.  (The zod schema does not
require the response ids to match the batch; a response omitting an id, or
repeating one, propagates directly to `results`.) -/
theorem classifyEmails_drops_input :
    classifyEmailsM (fun _ _ => some []) (fun _ => none) 0 (fun _ _ => 100)
        (fun _ => []) {}
        [{ emailId := "e1", «from» := "alice@example.com", subject := "Hello",
           snippet := none, bodyText := none, receivedAt := 0, labels := [],
           hasAttachments := false, attachments := none,
           isMailingList := false }] = ([], []) := by
  rfl

/-- C1 (amended): provided the input ids are pairwise distinct and every
schema-valid LLM response returns exactly one classification per id of its
batch (a permutation of the batch's ids — the contract the prompt demands;
retry exhaustion is covered by the rule-based fallback), `classifyEmails`
returns exactly one result per input id and an empty error list. -/
theorem classifyEmails_ids_exactly_once
    (oracle : List ClassificationInput → Bool → Option (List RawItem))
    (parse : String → Option ℚ) (now : ℚ) (sz : ClassificationInput → Bool → ℕ)
    (extractDates : String → List String) (opts : ClassifyOptions)
    (emails : List ClassificationInput)
    (hnd : (emails.map (·.emailId)).Nodup)
    (hor : ∀ b inc items, oracle b inc = some items →
      (items.map RawItem.emailId).Perm (b.map ClassificationInput.emailId)) :
    (((classifyEmailsM oracle parse now sz extractDates opts emails).1.map
        (·.emailId)).Perm (emails.map (·.emailId))) ∧
      (classifyEmailsM oracle parse now sz extractDates opts emails).2 = [] := by
  constructor
  · unfold classifyEmailsM
    dsimp only
    have hgo : ∀ bs : List (List ClassificationInput),
        (∀ b ∈ bs, (b.map (·.emailId)).Nodup) →
        (((bs.map fun batch =>
            processBatch oracle parse now sz extractDates opts batch).flatten).map
          (·.emailId)).Perm (bs.flatten.map (·.emailId)) := by
      intro bs hbs
      induction bs with
      | nil => exact List.Perm.refl _
      | cons hd tl ih =>
        simp only [List.map_cons, List.flatten_cons, List.map_append]
        exact (processBatch_ids_perm oracle parse now sz extractDates opts hor
          hd (hbs hd (by simp))).append
          (ih fun b hb => hbs b (List.mem_cons_of_mem _ hb))
    have h := hgo (splitIntoBatches (fun e => sz e false) emails) ?_
    · rw [splitIntoBatches_flatten] at h
      exact h
    · intro b hb
      have hsubl : b.Sublist emails := by
        have := List.sublist_flatten_of_mem hb
        rwa [splitIntoBatches_flatten] at this
      exact (hsubl.map _).nodup hnd
  · rfl

/-- Witness for the amended C1: two distinct inputs under an oracle whose
every call fails (forcing the deterministic fallback, which covers each
batch email exactly once): the returned ids are a permutation of the input
ids and the error list is empty. -/
theorem classifyEmails_ids_exactly_once_witness :
    (((classifyEmailsM (fun _ _ => none) (fun _ => none) 0 (fun _ _ => 100)
          (fun _ => []) {}
          [{ emailId := "e1", «from» := "a@x.com", subject := "s1",
             snippet := none, bodyText := none, receivedAt := 0, labels := [],
             hasAttachments := false, attachments := none,
             isMailingList := false },
           { emailId := "e2", «from» := "b@x.com", subject := "s2",
             snippet := none, bodyText := none, receivedAt := 0, labels := [],
             hasAttachments := false, attachments := none,
             isMailingList := false }]).1.map (·.emailId)).Perm
        ["e1", "e2"]) ∧
      (classifyEmailsM (fun _ _ => none) (fun _ => none) 0 (fun _ _ => 100)
          (fun _ => []) {}
          [{ emailId := "e1", «from» := "a@x.com", subject := "s1",
             snippet := none, bodyText := none, receivedAt := 0, labels := [],
             hasAttachments := false, attachments := none,
             isMailingList := false },
           { emailId := "e2", «from» := "b@x.com", subject := "s2",
             snippet := none, bodyText := none, receivedAt := 0, labels := [],
             hasAttachments := false, attachments := none,
             isMailingList := false }]).2 = [] :=
  classifyEmails_ids_exactly_once (fun _ _ => none) (fun _ => none) 0
    (fun _ _ => 100) (fun _ => []) {} _ (by decide)
    (fun b inc items h => absurd h (by simp))

/-- Witness for the amended C7: an unknown string maps to `"fyi"`, and the
alias `" Invoice "` maps to `"finance"`, which a second application leaves
fixed. -/
theorem normalizeCategoryJs_total_idempotent_witness :
    normalizeCategoryJs "zzz-unknown" = JsLookupValue.str "fyi" ∧
    normalizeCategoryJs "finance" = JsLookupValue.str "finance" :=
  ⟨(normalizeCategoryJs_total_idempotent "zzz-unknown" (by decide)).2.1
      (by decide),
    (normalizeCategoryJs_total_idempotent " Invoice " (by decide)).2.2
      "finance" (by decide)⟩

/-! ### Pipeline store model (`runAgentPipeline` write paths)

The classification table is a list of records; the email-side conditions of
the Prisma `where` clauses (account, thread id, membership in this run's new
emails) are abstracted as a predicate `emailMatch` on the email id, while the
classification-side conditions (`userOverride`, `handled`, `threadResolved`)
are modelled explicitly. -/

/-- A persisted `Classification` row (the fields written by the pipeline). -/
structure StoredClassification where
  emailId : String
  priority : Int
  category : String
  needsReply : Bool
  needsApproval : Bool
  isThreadActive : Bool
  actionItems : List ActionItem
  deadline : Option ℚ
  summary : String
  confidence : ℚ
  originalPriority : Int
  originalCategory : String
  classifiedAt : ℚ
  classifierVersion : String
  topics : List String
  sentiment : String
  userOverride : Bool
  handled : Bool
  threadResolved : Bool
deriving DecidableEq, Repr

/-- `deadlineDate`/`validDeadline` of the persistence steps: a falsy deadline
string gives `null`, an unparsable one (`NaN`) gives `null`, otherwise the
parsed date. -/
def validDeadlineOf (parse : String → Option ℚ) : Option String → Option ℚ
  | none => none
  | some s => if s = "" then none else parse s

/-- `prisma.classification.upsert` of Step 6: update the row with this email
id when it exists (create defaults `userOverride`/`handled`/`threadResolved`
to `false`, update leaves them untouched). -/
def upsertClassification (parse : String → Option ℚ) (now : ℚ)
    (st : List StoredClassification) (result : BatchClassificationResult) :
    List StoredClassification :=
  if st.any (fun r => r.emailId == result.emailId) then
    st.map fun r =>
      if r.emailId = result.emailId then
        { r with
          priority := result.classification.priority,
          category := result.classification.category,
          needsReply := result.classification.needsReply,
          needsApproval := result.classification.needsApproval,
          isThreadActive := result.classification.isThreadActive,
          actionItems := result.classification.actionItems,
          deadline := validDeadlineOf parse result.classification.deadline,
          summary := result.classification.summary,
          confidence := result.classification.confidence,
          originalPriority := result.classification.priority,
          originalCategory := result.classification.category,
          classifiedAt := now,
          classifierVersion := "v3-gpt52-enriched",
          topics := result.classification.topics,
          sentiment := result.classification.sentiment }
      else r
  else
    st ++ [{
      emailId := result.emailId,
      priority := result.classification.priority,
      category := result.classification.category,
      needsReply := result.classification.needsReply,
      needsApproval := result.classification.needsApproval,
      isThreadActive := result.classification.isThreadActive,
      actionItems := result.classification.actionItems,
      deadline := validDeadlineOf parse result.classification.deadline,
      summary := result.classification.summary,
      confidence := result.classification.confidence,
      originalPriority := result.classification.priority,
      originalCategory := result.classification.category,
      classifiedAt := now,
      classifierVersion := "v3-gpt52-enriched",
      topics := result.classification.topics,
      sentiment := result.classification.sentiment,
      userOverride := false,
      handled := false,
      threadResolved := false }]

/-- The pre-fetched `overrideSet` of Step 6: ids of classifications among
`validEmailIds` flagged `userOverride`. -/
def overrideIdSet (store : List StoredClassification)
    (validIds : List String) : List String :=
  (store.filter fun c => decide (c.emailId ∈ validIds) && c.userOverride).map
    (·.emailId)

/-- The per-result body of the Step 6 persistence loop: skip unknown ids,
skip user-overridden ids, else upsert. -/
def applyGptResult (parse : String → Option ℚ) (now : ℚ)
    (validIds overrideSet : List String) (st : List StoredClassification)
    (result : BatchClassificationResult) : List StoredClassification :=
  if result.emailId ∉ validIds then st
  else if result.emailId ∈ overrideSet then st
  else upsertClassification parse now st result

/-- Step 6 of `runAgentPipeline` (lines 1040–1128): persist the GPT results,
with `overrideSet` computed from the store before the loop. -/
def persistGptResults (parse : String → Option ℚ) (now : ℚ)
    (store : List StoredClassification) (validIds : List String)
    (results : List BatchClassificationResult) : List StoredClassification :=
  results.foldl (applyGptResult parse now validIds (overrideIdSet store validIds))
    store

/-- The B4 thread-resolution `updateMany` (lines 1178–1189): set
`threadResolved` on matching rows with `userOverride = false` and
`handled = false`. -/
def markThreadResolvedStep (store : List StoredClassification)
    (emailMatch : String → Bool) : List StoredClassification :=
  store.map fun r =>
    if emailMatch r.emailId ∧ r.userOverride = false ∧ r.handled = false then
      { r with threadResolved := true }
    else r

/-- The `staleEmails` selection (lines 1195–1227), restricted to its
classification-side conditions: ids of matching rows with
`userOverride = false`, `handled = false`, `threadResolved = false`. -/
def staleSelection (store : List StoredClassification)
    (emailMatch : String → Bool) : List String :=
  (store.filter fun r =>
    emailMatch r.emailId && !r.userOverride && !r.handled
      && !r.threadResolved).map (·.emailId)

/-- The hot-thread `prisma.classification.update` payload (lines 1332–1350):
unlike Step 6 it does not touch `originalPriority`/`originalCategory`. -/
def hotUpdateRow (parse : String → Option ℚ) (now : ℚ)
    (r : StoredClassification) (result : BatchClassificationResult) :
    StoredClassification :=
  { r with
    priority := result.classification.priority,
    category := result.classification.category,
    needsReply := result.classification.needsReply,
    needsApproval := result.classification.needsApproval,
    isThreadActive := result.classification.isThreadActive,
    actionItems := result.classification.actionItems,
    deadline := validDeadlineOf parse result.classification.deadline,
    summary := result.classification.summary,
    confidence := result.classification.confidence,
    classifiedAt := now,
    classifierVersion := "v3-gpt52-enriched",
    topics := result.classification.topics,
    sentiment := result.classification.sentiment }

/-- One iteration of the hot-thread re-classification write loop: `update`
keyed by the result's email id — with **no** check that the id belongs to the
stale selection; a missing row makes `update` throw, swallowed by the
per-item catch (modelled as no change). -/
def applyHotResult (parse : String → Option ℚ) (now : ℚ)
    (st : List StoredClassification) (result : BatchClassificationResult) :
    List StoredClassification :=
  if st.any (fun r => r.emailId == result.emailId) then
    st.map fun r =>
      if r.emailId = result.emailId then hotUpdateRow parse now r result else r
  else st

/-- The hot-thread re-classification write loop (lines 1313–1355). -/
def hotThreadUpdate (parse : String → Option ℚ) (now : ℚ)
    (store : List StoredClassification)
    (results : List BatchClassificationResult) : List StoredClassification :=
  results.foldl (applyHotResult parse now) store

theorem applyGptResult_preserves_override (parse : String → Option ℚ)
    (now : ℚ) (validIds overrideSet : List String)
    (st : List StoredClassification) (result : BatchClassificationResult)
    (r : StoredClassification) (hr : r ∈ st)
    (hin : r.emailId ∈ validIds → r.emailId ∈ overrideSet) :
    r ∈ applyGptResult parse now validIds overrideSet st result := by
  unfold applyGptResult
  by_cases h1 : result.emailId ∉ validIds
  · rw [if_pos h1]; exact hr
  · rw [if_neg h1]
    by_cases h2 : result.emailId ∈ overrideSet
    · rw [if_pos h2]; exact hr
    · rw [if_neg h2]
      unfold upsertClassification
      by_cases heq : r.emailId = result.emailId
      · have hv : r.emailId ∈ validIds := by rw [heq]; exact not_not.1 h1
        have hos := hin hv
        rw [heq] at hos
        exact absurd hos h2
      · split_ifs with h3
        · exact List.mem_map.2 ⟨r, hr, by simp [heq]⟩
        · exact List.mem_append_left _ hr

theorem persistGptResults_preserves_override (parse : String → Option ℚ)
    (now : ℚ) (store : List StoredClassification) (validIds : List String)
    (results : List BatchClassificationResult) (r : StoredClassification)
    (hr : r ∈ store) (hov : r.userOverride = true) :
    r ∈ persistGptResults parse now store validIds results := by
  unfold persistGptResults
  have hin : r.emailId ∈ validIds → r.emailId ∈ overrideIdSet store validIds :=
    fun hv => List.mem_map.2 ⟨r, List.mem_filter.2 ⟨hr, by simp [hv, hov]⟩, rfl⟩
  have haux : ∀ (res : List BatchClassificationResult)
      (st : List StoredClassification), r ∈ st →
      r ∈ res.foldl
        (applyGptResult parse now validIds (overrideIdSet store validIds)) st := by
    intro res
    induction res with
    | nil => intro st h; exact h
    | cons hd tl ih =>
      intro st h
      exact ih _ (applyGptResult_preserves_override parse now validIds
        (overrideIdSet store validIds) st hd r h hin)
  exact haux results store hr

theorem markThreadResolved_preserves_override
    (store : List StoredClassification) (emailMatch : String → Bool)
    (r : StoredClassification) (hr : r ∈ store)
    (hov : r.userOverride = true) :
    r ∈ markThreadResolvedStep store emailMatch := by
  unfold markThreadResolvedStep
  exact List.mem_map.2 ⟨r, hr, by simp [hov]⟩

theorem hotThreadUpdate_preserves_override (parse : String → Option ℚ)
    (now : ℚ) (store : List StoredClassification)
    (results : List BatchClassificationResult) (emailMatch : String → Bool)
    (r : StoredClassification) (hr : r ∈ store) (hov : r.userOverride = true)
    (hnd : (store.map (·.emailId)).Nodup)
    (hsub : ∀ b ∈ results, b.emailId ∈ staleSelection store emailMatch) :
    r ∈ hotThreadUpdate parse now store results := by
  unfold hotThreadUpdate
  have hne : ∀ b ∈ results, b.emailId ≠ r.emailId := by
    intro b hb heq
    rcases List.mem_map.1 (hsub b hb) with ⟨c, hcf, hcid⟩
    rcases List.mem_filter.1 hcf with ⟨hcmem, hcond⟩
    have hcr : c = r :=
      List.inj_on_of_nodup_map hnd hcmem hr (hcid.trans heq)
    simp only [Bool.and_eq_true, Bool.not_eq_true'] at hcond
    rw [hcr] at hcond
    exact absurd hcond.1.1.2 (by simp [hov])
  have haux : ∀ (res : List BatchClassificationResult)
      (st : List StoredClassification), r ∈ st →
      (∀ b ∈ res, b.emailId ≠ r.emailId) →
      r ∈ res.foldl (applyHotResult parse now) st := by
    intro res
    induction res with
    | nil => intro st h _; exact h
    | cons hd tl ih =>
      intro st h hne'
      refine ih _ ?_ fun b hb => hne' b (List.mem_cons_of_mem _ hb)
      unfold applyHotResult
      have hrne : ¬ (r.emailId = hd.emailId) :=
        fun hh => hne' hd (List.mem_cons_self _ _) hh.symm
      split_ifs with h1
      · exact List.mem_map.2 ⟨r, h, by simp [hrne]⟩
      · exact h
  exact haux results store hr hne

/-- C5 (amended): the user-override boundary holds for the initial
persistence step and the thread-resolution marking unconditionally, and for
the hot-thread write step provided every id returned by the classifier is
among the stale (non-overridden) selection — the write loop itself performs
no override re-check, so the guarantee for it rests on that echo condition:
a record flagged `userOverride` survives all three steps unchanged. -/
theorem userOverride_never_modified (parse : String → Option ℚ) (now : ℚ)
    (store : List StoredClassification) (validIds : List String)
    (results hotResults : List BatchClassificationResult)
    (emailMatch : String → Bool) (r : StoredClassification)
    (hr : r ∈ store) (hov : r.userOverride = true) :
    r ∈ persistGptResults parse now store validIds results ∧
    r ∈ markThreadResolvedStep store emailMatch ∧
    ((store.map (·.emailId)).Nodup →
      (∀ b ∈ hotResults, b.emailId ∈ staleSelection store emailMatch) →
      r ∈ hotThreadUpdate parse now store hotResults) :=
  ⟨persistGptResults_preserves_override parse now store validIds results r hr
      hov,
    markThreadResolved_preserves_override store emailMatch r hr hov,
    fun hnd hsub => hotThreadUpdate_preserves_override parse now store
      hotResults emailMatch r hr hov hnd hsub⟩

/-- The overridden record used by the C5 counterexample and witness. -/
def recOverridden : StoredClassification :=
  { emailId := "e1", priority := 1, category := "task", needsReply := true,
    needsApproval := false, isThreadActive := false, actionItems := [],
    deadline := none, summary := "s", confidence := 1,
    originalPriority := 3, originalCategory := "fyi", classifiedAt := 0,
    classifierVersion := "v3-gpt52-enriched", topics := [],
    sentiment := "neutral", userOverride := true, handled := false,
    threadResolved := false }

/-- A non-overridden sibling record in the same hot thread. -/
def recStale : StoredClassification :=
  { emailId := "e2", priority := 3, category := "fyi", needsReply := false,
    needsApproval := false, isThreadActive := false, actionItems := [],
    deadline := none, summary := "t", confidence := 1,
    originalPriority := 3, originalCategory := "fyi", classifiedAt := 0,
    classifierVersion := "v3-gpt52-enriched", topics := [],
    sentiment := "neutral", userOverride := false, handled := false,
    threadResolved := false }

/-- The stale sibling as a re-classification input. -/
def staleInput : ClassificationInput :=
  { emailId := "e2", «from» := "bob@x.com", subject := "s2", snippet := none,
    bodyText := none, receivedAt := 0, labels := [], hasAttachments := false,
    attachments := none, isMailingList := false }

/-- An oracle returning a schema-valid response whose echoed id `"e1"` is
not among its inputs. -/
def rogueOracle : List ClassificationInput → Bool → Option (List RawItem) :=
  fun _ _ =>
    some
      [{ emailId := "e1",
         priority := 5,
         category := "spam",
         needsReply := false,
         needsApproval := false,
         isThreadActive := false,
         actionItems := [],
         deadline := none,
         summary := "x",
         confidence := mkRat 19 20,
         topics := [],
         sentiment := "neutral" }]

/-- C5 (counterexample): although the hot-thread selection picks only the
non-overridden sibling `"e2"`, the classifier may echo the foreign id
`"e1"` (the zod schema does not restrict ids); the hot-thread write loop
keys its `update` on the returned id with no override re-check, so the
user-overridden record `"e1"` is overwritten (priority 1 → 5, category
`"task"` → `"spam"`). -/
theorem hotThreadUpdate_overwrites_override :
    staleSelection [recOverridden, recStale] (fun _ => true) = ["e2"] ∧
    (classifyEmailsM rogueOracle (fun _ => none) 0 (fun _ _ => 100)
        (fun _ => []) {} [staleInput]).1.map (·.emailId) = ["e1"] ∧
    hotThreadUpdate (fun _ => none) 0 [recOverridden, recStale]
        (classifyEmailsM rogueOracle (fun _ => none) 0 (fun _ _ => 100)
          (fun _ => []) {} [staleInput]).1 =
      [{ recOverridden with
           priority := 5,
           category := "spam",
           needsReply := false,
           summary := "x",
           confidence := mkRat 19 20 },
        recStale] := by
  refine ⟨rfl, rfl, ?_⟩
  decide

/-- A well-formed classifier result for the overridden email `"e1"`, used by
the C5 witness to exercise the Step 6 skip. -/
def gptResultE1 : BatchClassificationResult :=
  { emailId := "e1",
    classification :=
      { priority := 4,
        category := "spam",
        needsReply := false,
        needsApproval := false,
        isThreadActive := false,
        actionItems := [],
        deadline := none,
        summary := "y",
        confidence := mkRat 1 2,
        topics := [],
        sentiment := "neutral" } }

/-- A well-formed hot-thread result for the stale email `"e2"`. -/
def hotResultE2 : BatchClassificationResult :=
  { emailId := "e2",
    classification :=
      { priority := 4,
        category := "spam",
        needsReply := false,
        needsApproval := false,
        isThreadActive := false,
        actionItems := [],
        deadline := none,
        summary := "y",
        confidence := mkRat 1 2,
        topics := [],
        sentiment := "neutral" } }

/-- Witness for the amended C5: in the concrete two-record store, the
overridden record survives the persistence step (its id is in
`validEmailIds`), the resolution marking, and a hot-thread write whose
single result id `"e2"` lies in the stale selection. -/
theorem userOverride_never_modified_witness :
    recOverridden ∈ persistGptResults (fun _ => none) 0
        [recOverridden, recStale] ["e1", "e2"] [gptResultE1] ∧
    recOverridden ∈ markThreadResolvedStep [recOverridden, recStale]
        (fun _ => true) ∧
    recOverridden ∈ hotThreadUpdate (fun _ => none) 0
        [recOverridden, recStale] [hotResultE2] := by
  have h := userOverride_never_modified (fun _ => none) 0
    [recOverridden, recStale] ["e1", "e2"] [gptResultE1] [hotResultE2]
    (fun _ => true) recOverridden (by simp) rfl
  exact ⟨h.1, h.2.1, h.2.2 (by decide) (by decide)⟩

end EmailAgent
